import Mathlib

/-!
# Verification of the zk-activity killmail filter engine

A shallow embedding of the matching core of the `zk-activity` repository
(`src/processor.rs`, `src/config.rs`, `src/discord_bot.rs`, `src/lib.rs`),
together with theorems settling the frozen claims about it.

Conventions of the embedding:

* Machine integers (`u32`, `u64`, `i64`) are modelled as `Nat` / `Int`; none of
  the embedded code paths can overflow or rely on wrapping.
* `f64` / `f32` quantities (ISK values, security status, coordinates,
  standings) are modelled as `ℚ`.  The two floating-point computations whose
  bit-exact results are not representable in `ℚ` — the Euclidean
  distance-with-square-root of `distance` and the decimal parsing done by
  `f64::from_str` / `chrono` — are abstracted as fields of the enrichment
  environment `Env`; every theorem below is quantified over the environment,
  so nothing depends on a particular choice.
* The enrichment getters `get_system`, `get_ship_group_id` and `get_name`
  (read-through caches over ESI in `discord_bot.rs`) are modelled by the pure
  lookup functions of `Env`: the model maps an id to the value the getter
  would return, `none` standing for an enrichment miss.
* `HashSet<AttackerKey>` is modelled as `Finset AttackerKey`;
  `HashMap` snapshots are modelled as association lists or lookup functions.
-/

namespace ZkActivity

/-- Embeds `config.rs` `System`: a solar system record from the enrichment layer.
Coordinates and security status (`f64` in the source) are modelled as `ℚ`. -/
structure System where
  id : Nat
  name : String
  security_status : ℚ
  region_id : Nat
  region : String
  x : ℚ
  y : ℚ
  z : ℚ
  deriving DecidableEq, Repr

/-- Embeds `config.rs` `SystemRange`: a reference system together with a light-year
range (`f64`, modelled as `ℚ`). -/
structure SystemRange where
  system_id : Nat
  range : ℚ
  deriving DecidableEq, Repr

/-- Embeds `config.rs` `Target`. -/
inductive Target where
  | any
  | attacker
  | victim
  deriving DecidableEq, Repr

/-- Embeds `Target::is_attacker`. -/
def Target.is_attacker : Target → Bool
  | .attacker | .any => true
  | .victim => false

/-- Embeds `Target::is_victim`. -/
def Target.is_victim : Target → Bool
  | .victim | .any => true
  | .attacker => false

/-- Embeds `config.rs` `TargetableCondition`. -/
inductive TargetableCondition where
  | alliance (ids : List Nat)
  | corporation (ids : List Nat)
  | character (ids : List Nat)
  | shipType (ids : List Nat)
  | shipGroup (ids : List Nat)
  | nameFragment (s : String)
  deriving DecidableEq, Repr

/-- Embeds `config.rs` `TargetedFilter`. -/
structure TargetedFilter where
  condition : TargetableCondition
  target : Target
  deriving DecidableEq, Repr

/-- Embeds `config.rs` `StandingSource`. -/
inductive StandingSource where
  | character
  | corporation
  | alliance
  deriving DecidableEq, Repr

/-- Embeds `config.rs` `SimpleFilter`.  `TimeRange`'s `end` field is renamed to
`endHour` (`end` is a Lean keyword); `Security` keeps its raw range string,
parsed at evaluation time exactly as in the source. -/
inductive SimpleFilter where
  | totalValue (min max : Option Nat)
  | droppedValue (min max : Option Nat)
  | region (ids : List Nat)
  | system (ids : List Nat)
  | security (range : String)
  | lyRangeFrom (ranges : List SystemRange)
  | isNpc (b : Bool)
  | isSolo (b : Bool)
  | pilots (min max : Option Nat)
  | timeRange (start endHour : Nat)
  | ignoreHighStanding (synched_by_user_id : Nat) (source : StandingSource)
      (source_entity_id : Nat)
  deriving DecidableEq, Repr

/-- Embeds `config.rs` `Filter`. -/
inductive Filter where
  | simple (sf : SimpleFilter)
  | targeted (tf : TargetedFilter)
  deriving DecidableEq, Repr

/-- Embeds `config.rs` `FilterNode`: the recursive filter expression tree. -/
inductive FilterNode where
  | condition (f : Filter)
  | and (nodes : List FilterNode)
  | or (nodes : List FilterNode)
  | not (node : FilterNode)

/-- Embeds `config.rs` `PingType`. -/
inductive PingType where
  | here (max_ping_delay_minutes : Option Nat)
  | everyone (max_ping_delay_minutes : Option Nat)
  deriving DecidableEq, Repr

/-- Embeds `PingType::max_ping_delay_in_minutes`. -/
def PingType.max_ping_delay_in_minutes : PingType → Option Nat
  | .here m => m
  | .everyone m => m

/-- Embeds `config.rs` `Action`. -/
structure Action where
  channel_id : String
  ping_type : Option PingType
  deriving DecidableEq, Repr

/-- Embeds `config.rs` `Subscription`. -/
structure Subscription where
  id : String
  description : String
  root_filter : FilterNode
  action : Action

/-- Embeds `config.rs` `EveAuthToken` (only the identity fields read by the
evaluator; the OAuth token strings and expiry are never read there). -/
structure EveAuthToken where
  character_id : Nat
  corporation_id : Nat
  alliance_id : Option Nat
  deriving DecidableEq, Repr

/-- Embeds `config.rs` `StandingContact` (`standing` is `f32`, modelled as `ℚ`). -/
structure StandingContact where
  contact_id : Nat
  standing : ℚ
  deriving DecidableEq, Repr

/-- Embeds `config.rs` `UserStandings`: tokens plus the contact-list map
(`UserContactLists.contacts : HashMap<u64, Vec<StandingContact>>`,
modelled as a lookup function). -/
structure UserStandings where
  tokens : List EveAuthToken
  contacts : Nat → Option (List StandingContact)

/-- Embeds `models.rs` `Attacker`.  Only the fields the evaluator and
`AttackerKey::new` read are modelled; `damage_done`, `final_blow` and
`security_status` are never consulted by the matching core. -/
structure Attacker where
  alliance_id : Option Nat
  corporation_id : Option Nat
  character_id : Option Nat
  faction_id : Option Nat
  ship_type_id : Option Nat
  weapon_type_id : Option Nat
  deriving DecidableEq, Repr

/-- Embeds `models.rs` `Victim` (fields read by the evaluator; `damage_taken`,
`items` and `position` are not consulted by the matching core). -/
structure Victim where
  alliance_id : Option Nat
  corporation_id : Option Nat
  character_id : Option Nat
  faction_id : Option Nat
  ship_type_id : Nat
  deriving DecidableEq, Repr

/-- Embeds `models.rs` `KillmailData`. -/
structure KillmailData where
  attackers : List Attacker
  killmail_id : Int
  killmail_time : String
  solar_system_id : Nat
  victim : Victim
  deriving DecidableEq, Repr

/-- Embeds `models.rs` `Zkb` (fields read by the evaluator; `f64` values as `ℚ`). -/
structure Zkb where
  dropped_value : ℚ
  total_value : ℚ
  npc : Bool
  solo : Bool
  deriving DecidableEq, Repr

/-- Embeds `models.rs` `ZkData`. -/
structure ZkData where
  kill_id : Int
  killmail : KillmailData
  zkb : Zkb
  deriving DecidableEq, Repr

/-- Embeds `processor.rs` `AttackerKey`: a composite string key for an attacker. -/
structure AttackerKey where
  key : String
  deriving DecidableEq, Repr

/-- Embeds `AttackerKey::new`: available ids are rendered in the fixed order
ship, weapon, character, corporation, alliance, faction, each with its
one-letter prefix, and joined with `:`. -/
def AttackerKey.new (a : Attacker) : AttackerKey :=
  ⟨String.intercalate ":" (List.filterMap id
    [a.ship_type_id.map (fun i => "s" ++ toString i),
     a.weapon_type_id.map (fun i => "w" ++ toString i),
     a.character_id.map (fun i => "c" ++ toString i),
     a.corporation_id.map (fun i => "o" ++ toString i),
     a.alliance_id.map (fun i => "a" ++ toString i),
     a.faction_id.map (fun i => "f" ++ toString i)])⟩

/-- Embeds `processor.rs` `FilterResult`. -/
structure FilterResult where
  matched_attackers : Finset AttackerKey
  matched_victim : Bool
  min_pilots : Option Nat
  light_year_range : Option SystemRange
  deriving DecidableEq

instance : Inhabited FilterResult := ⟨⟨∅, false, none, none⟩⟩

/-- Embeds `Default::default()` for `FilterResult`. -/
def FilterResult.default : FilterResult := ⟨∅, false, none, none⟩

/-- Embeds `processor.rs` `NamedFilterResult`. -/
structure NamedFilterResult where
  name : String
  filter_result : FilterResult
  deriving DecidableEq

/-- The enrichment environment: the read side of `AppState` together with
the two floating-point kernels that cannot be represented exactly in `ℚ`.
`systems`, `shipGroups` and `names` model what `get_system`,
`get_ship_group_id` and `get_name` in `discord_bot.rs` would return
(`none` = enrichment miss); `userStandings` models the
`user_standings` map read by the veto filter. -/
structure Env where
  systems : Nat → Option System
  shipGroups : Nat → Option Nat
  names : Nat → Option String
  userStandings : Nat → Option UserStandings
  /-- Models `processor.rs` `distance`: the Euclidean distance between two
  systems in metres, scaled by `1 / 9_460_730_472_580_800` to light years.
  The square root forces the abstraction; all theorems hold for every
  choice of this function. -/
  distanceLy : System → System → ℚ
  /-- Models `f64::from_str` as used by `parse_security_range`. -/
  parseF64 : String → Option ℚ
  /-- Models `chrono::DateTime::parse_from_rfc3339` followed by `.hour()`:
  the UTC hour of the timestamp, `none` on a parse failure. -/
  parseHourUTC : String → Option Nat

/-- Embeds `processor.rs` `parse_security_range`: split on `..=`, parse both ends
as `f64`; fails unless exactly two parts. -/
def parse_security_range (env : Env) (s : String) : Option (ℚ × ℚ) :=
  match s.splitOn "..=" with
  | [a, b] =>
    match env.parseF64 a, env.parseF64 b with
    | some lo, some hi => some (lo, hi)
    | _, _ => none
  | _ => none

/-- Embeds `f64::round` (round half away from zero), on `ℚ`. -/
def roundHalfAwayFromZero (q : ℚ) : ℤ :=
  if 0 ≤ q then ⌊q + 1 / 2⌋ else ⌈q - 1 / 2⌉

/-- Embeds `Display for Target` in `config.rs`. -/
def Target.display : Target → String
  | .any => "Any"
  | .attacker => "Attacker"
  | .victim => "Victim"

/-- Render an id list as the source's `ids.iter().map(to_string).join(", ")`. -/
def joinIds (ids : List Nat) : String :=
  String.intercalate ", " (ids.map toString)

/-- Embeds `TargetedFilter::name`. -/
def TargetedFilter.name (tf : TargetedFilter) : String :=
  match tf.condition with
  | .alliance ids =>
    "Alliance(ids: [" ++ joinIds ids ++ "], target: " ++ tf.target.display ++ ")"
  | .corporation ids =>
    "Corporation(ids: [" ++ joinIds ids ++ "], target: " ++ tf.target.display ++ ")"
  | .character ids =>
    "Character(ids: [" ++ joinIds ids ++ "], target: " ++ tf.target.display ++ ")"
  | .shipType ids =>
    "ShipType(ids: [" ++ joinIds ids ++ "], target: " ++ tf.target.display ++ ")"
  | .shipGroup ids =>
    "ShipGroup(ids: [" ++ joinIds ids ++ "], target: " ++ tf.target.display ++ ")"
  | .nameFragment s =>
    "NameFragment(fragment: \"" ++ s ++ "\", target: " ++ tf.target.display ++ ")"

/-- Embeds `{:?}` rendering of `StandingSource`. -/
def StandingSource.display : StandingSource → String
  | .character => "Character"
  | .corporation => "Corporation"
  | .alliance => "Alliance"

/-- Embeds `Option::map_or("any", to_string)` used by `SimpleFilter::name`. -/
def optNatName (o : Option Nat) : String := o.elim "any" toString

/-- Embeds `SimpleFilter::name`.  The light-year ranges are `f64` in the source
and are displayed through `ℚ`'s `toString` here; the rendering of a
non-integral range therefore differs textually from Rust's float
formatting, which no theorem below depends on. -/
def SimpleFilter.name : SimpleFilter → String
  | .totalValue min max =>
    "TotalValue(min: " ++ optNatName min ++ ", max: " ++ optNatName max ++ ")"
  | .droppedValue min max =>
    "DroppedValue(min: " ++ optNatName min ++ ", max: " ++ optNatName max ++ ")"
  | .region ids => "Region(" ++ joinIds ids ++ ")"
  | .system ids => "System(" ++ joinIds ids ++ ")"
  | .security range => "Security(" ++ range ++ ")"
  | .lyRangeFrom ranges =>
    "LyRangeFrom(" ++ String.intercalate ", "
      (ranges.map (fun sr => toString sr.system_id ++ ":" ++ toString sr.range ++ "ly")) ++ ")"
  | .isNpc b => "IsNpc(" ++ toString b ++ ")"
  | .isSolo b => "IsSolo(" ++ toString b ++ ")"
  | .pilots min max =>
    "Pilots(min: " ++ optNatName min ++ ", max: " ++ optNatName max ++ ")"
  | .timeRange start endHour =>
    "TimeRange(" ++ toString start ++ ":00-" ++ toString endHour ++ ":00)"
  | .ignoreHighStanding u src eid =>
    "IgnoreHighStanding(synched_by: " ++ toString u ++ ", source: " ++ src.display
      ++ ", source_id: " ++ toString eid ++ ")"

/-- Embeds `Filter::name`. -/
def Filter.name : Filter → String
  | .simple sf => sf.name
  | .targeted tf => tf.name

mutual

/-- Embeds `FilterNode::name`: recursive human-readable rendering. -/
def FilterNode.name : FilterNode → String
  | .condition c => c.name
  | .and nodes => "And(" ++ String.intercalate ", " (nodeNames nodes) ++ ")"
  | .or nodes => "Or(" ++ String.intercalate ", " (nodeNames nodes) ++ ")"
  | .not node => "Not(" ++ FilterNode.name node ++ ")"

/-- The `nodes.iter().map(FilterNode::name)` list of `FilterNode::name`. -/
def nodeNames : List FilterNode → List String
  | [] => []
  | n :: rest => FilterNode.name n :: nodeNames rest

end

/-- Rust `to_lowercase` / case-insensitive `contains`: `frag.to_lowercase()`
is a substring of `n.to_lowercase()` (on the character lists; ASCII-faithful). -/
def nameContainsFragment (n frag : String) : Bool :=
  decide ((frag.toLower).data <:+: (n.toLower).data)

/-- The `condition_checker` closure of `evaluate_filter`
(`processor.rs:637-683`): does one attacker (or the victim synthesised as a
pseudo-attacker) satisfy a targetable condition? -/
def conditionChecker (env : Env) (cond : TargetableCondition) (attacker : Attacker) : Bool :=
  match cond with
  | .alliance ids => attacker.alliance_id.any (fun id => ids.contains id)
  | .corporation ids => attacker.corporation_id.any (fun id => ids.contains id)
  | .character ids => attacker.character_id.any (fun id => ids.contains id)
  | .shipType ids =>
    attacker.ship_type_id.any (fun id => ids.contains id)
      || attacker.weapon_type_id.any (fun id => ids.contains id)
  | .shipGroup ids =>
    let ship_match :=
      match attacker.ship_type_id with
      | some id => (env.shipGroups id).any (fun gid => ids.contains gid)
      | none => false
    let weapon_match :=
      match attacker.weapon_type_id with
      | some id => (env.shipGroups id).any (fun gid => ids.contains gid)
      | none => false
    ship_match || weapon_match
  | .nameFragment s =>
    match attacker.ship_type_id with
    | some id => (env.names id).any (fun n => nameContainsFragment n s)
    | none =>
      match attacker.weapon_type_id with
      | some id => (env.names id).any (fun n => nameContainsFragment n s)
      | none => false

/-- The `victim_as_attacker` synthesis of `evaluate_filter`
(`processor.rs:687-697`): the victim checked as a pseudo-attacker, with no
weapon. -/
def victimAsAttacker (v : Victim) : Attacker :=
  { character_id := v.character_id
    corporation_id := v.corporation_id
    alliance_id := v.alliance_id
    ship_type_id := some v.ship_type_id
    weapon_type_id := none
    faction_id := v.faction_id }

/-- The body of the `IgnoreHighStanding` branch of `evaluate_filter`
(`processor.rs:560-624`): collect the keys of "blue" attackers.  Always
yields a result (possibly with an empty set), and — by the early `return` in
the source — never receives the `matched_victim := true` patch. -/
def ignoreHighStandingResult (env : Env) (killmail : KillmailData)
    (synched_by_user_id : Nat) (source : StandingSource) (source_entity_id : Nat) :
    FilterResult :=
  match env.userStandings synched_by_user_id with
  | none => FilterResult.default
  | some user_standings =>
    let implicit_blues : List Nat :=
      let base := [source_entity_id]
      let context_token := user_standings.tokens.find? (fun t =>
        match source with
        | .character => t.character_id = source_entity_id
        | .corporation => t.corporation_id = source_entity_id
        | .alliance => t.alliance_id = some source_entity_id)
      match context_token with
      | none => base
      | some token =>
        match source with
        | .character => base ++ [token.corporation_id] ++ token.alliance_id.toList
        | .corporation => base ++ token.alliance_id.toList
        | .alliance => base
    let contacts := user_standings.contacts source_entity_id
    let blueKeys : Finset AttackerKey :=
      (killmail.attackers.filter (fun attacker =>
        let attacker_ids := [attacker.character_id, attacker.corporation_id,
          attacker.alliance_id]
        (attacker_ids.filterMap id).any (fun id =>
          implicit_blues.contains id
            || contacts.any (fun cl =>
                cl.any (fun c => c.contact_id = id && c.standing ≥ 5))))).foldr
        (fun attacker s => insert (AttackerKey.new attacker) s) ∅
    { FilterResult.default with matched_attackers := blueKeys }

/-- Embeds `evaluate_filter` (`processor.rs:400-723`): evaluate one leaf filter
against a killmail. -/
def evaluateFilter (env : Env) (zk : ZkData) (filter : Filter) :
    Option NamedFilterResult :=
  let killmail := zk.killmail
  let filter_result : Option FilterResult :=
    match filter with
    | .simple sf =>
      match sf with
      | .ignoreHighStanding u src eid =>
        -- the source's early `return`: no `matched_victim` patch is applied
        some (ignoreHighStandingResult env killmail u src eid)
      | _ =>
        let res : Option FilterResult :=
          match sf with
          | .totalValue min max =>
            if min.all (fun m => (m : ℚ) ≤ zk.zkb.total_value)
                && max.all (fun m => zk.zkb.total_value ≤ (m : ℚ)) then
              some FilterResult.default
            else none
          | .droppedValue min max =>
            if min.all (fun m => (m : ℚ) ≤ zk.zkb.dropped_value)
                && max.all (fun m => zk.zkb.dropped_value ≤ (m : ℚ)) then
              some FilterResult.default
            else none
          | .region region_ids =>
            if (env.systems killmail.solar_system_id).any
                (fun s => region_ids.contains s.region_id) then
              some FilterResult.default
            else none
          | .system system_ids =>
            if system_ids.contains killmail.solar_system_id then
              some FilterResult.default
            else none
          | .security range_str =>
            match env.systems killmail.solar_system_id,
                parse_security_range env range_str with
            | some system, some range =>
              let rounded_sec : ℚ :=
                (roundHalfAwayFromZero (system.security_status * 10) : ℚ) / 10
              if range.1 ≤ rounded_sec ∧ rounded_sec ≤ range.2 then
                some FilterResult.default
              else none
            | _, _ => none
          | .lyRangeFrom system_ranges =>
            match env.systems killmail.solar_system_id with
            | some killmail_system =>
              let matched_ranges : List SystemRange :=
                system_ranges.filterMap (fun system_range =>
                  match env.systems system_range.system_id with
                  | some target_system =>
                    let d := env.distanceLy killmail_system target_system
                    if d ≤ system_range.range then
                      some { system_id := target_system.id, range := d }
                    else none
                  | none => none)
              match matched_ranges with
              | [] => none
              | r :: rest =>
                -- the source sorts descending by range (stable) and pops the
                -- last element: the shortest matching range, ties resolved to
                -- the latest-listed one
                some { FilterResult.default with
                  light_year_range := some (rest.foldl
                    (fun best x => if x.range ≤ best.range then x else best) r) }
            | none => none
          | .isNpc is_npc =>
            if zk.zkb.npc = is_npc then some FilterResult.default else none
          | .isSolo is_solo =>
            if zk.zkb.solo = is_solo then some FilterResult.default else none
          | .pilots min max =>
            let num_pilots := killmail.attackers.length + 1
            if min.all (fun m => m ≤ num_pilots) && max.all (fun m => num_pilots ≤ m) then
              some { FilterResult.default with min_pilots := some (min.getD 0) }
            else none
          | .timeRange start endHour =>
            let ok :=
              match env.parseHourUTC killmail.killmail_time with
              | some killmail_hour =>
                if start ≤ endHour then
                  start ≤ killmail_hour && killmail_hour ≤ endHour
                else
                  start ≤ killmail_hour || killmail_hour ≤ endHour
              | none => false
            if ok then some FilterResult.default else none
          | .ignoreHighStanding _ _ _ => none  -- unreachable: handled above
        -- the post-match patch: every simple filter except the veto marks
        -- the victim as matched
        res.map (fun r => { r with matched_victim := true })
    | .targeted tf =>
      let result : FilterResult :=
        let afterVictim : FilterResult :=
          if tf.target.is_victim
              && conditionChecker env tf.condition (victimAsAttacker killmail.victim) then
            { FilterResult.default with matched_victim := true }
          else FilterResult.default
        if tf.target.is_attacker then
          let keys : Finset AttackerKey :=
            (killmail.attackers.filter
              (fun attacker => conditionChecker env tf.condition attacker)).foldr
              (fun attacker s => insert (AttackerKey.new attacker) s) ∅
          { afterVictim with matched_attackers := keys }
        else afterVictim
      if result.matched_victim || !(result.matched_attackers = ∅) then
        some result
      else none
  filter_result.map (fun fr => { name := filter.name, filter_result := fr })

mutual

/-- Embeds `evaluate_filter_node` (`processor.rs:277-398`): recursively evaluate a
filter tree against a killmail. -/
def evaluateFilterNode (env : Env) (zk : ZkData) : FilterNode → Option NamedFilterResult
  | .condition filter => evaluateFilter env zk filter
  | .and nodes =>
    match evalAndChildren env zk nodes with
    | none => none  -- one failing child fails the whole And block
    | some results =>
      let final_filter_result : FilterResult :=
        { min_pilots := results.findSome? (fun r => r.filter_result.min_pilots)
          light_year_range :=
            (results.find? (fun r => r.filter_result.light_year_range.isSome)).bind
              (fun r => r.filter_result.light_year_range)
          -- start with the first non-empty set, then intersect with the other
          -- non-empty sets; empty sets are "don't care"
          matched_attackers :=
            let init := ((results.find? (fun r => !(r.filter_result.matched_attackers = ∅))).map
              (fun r => r.filter_result.matched_attackers)).getD ∅
            results.foldl (fun acc b =>
              if b.filter_result.matched_attackers = ∅ then acc
              else acc ∩ b.filter_result.matched_attackers) init
          matched_victim := results.all (fun b => b.filter_result.matched_victim) }
      if final_filter_result.matched_victim
          || !(final_filter_result.matched_attackers = ∅) then
        some { name := String.intercalate " + " (results.map (fun r => r.name))
               filter_result := final_filter_result }
      else none
  | .or nodes =>
    (evalOrChildren env zk nodes none).map
      (fun fr => { name := (FilterNode.or nodes).name, filter_result := fr })
  | .not node =>
    if (evaluateFilterNode env zk node).isSome then none
    else
      let all_attackers : Finset AttackerKey :=
        (zk.killmail.attackers.map AttackerKey.new).toFinset
      some { name := "Not(" ++ node.name ++ ")"
             filter_result := { FilterResult.default with
               matched_attackers := all_attackers
               matched_victim := true } }

/-- The `And`-branch child loop of `evaluate_filter_node`: evaluate the
children left to right, failing on the first `None`. -/
def evalAndChildren (env : Env) (zk : ZkData) : List FilterNode → Option (List NamedFilterResult)
  | [] => some []
  | n :: rest =>
    match evaluateFilterNode env zk n with
    | none => none
    | some r => (evalAndChildren env zk rest).map (fun rs => r :: rs)

/-- The `Or`-branch child loop of `evaluate_filter_node`: fold the matching
children into the accumulator, extending the attacker set and or-ing the
victim flag; metadata stays whatever the first matching child carried. -/
def evalOrChildren (env : Env) (zk : ZkData) :
    List FilterNode → Option FilterResult → Option FilterResult
  | [], acc => acc
  | n :: rest, acc =>
    match evaluateFilterNode env zk n, acc with
    | some result, some current_res =>
      evalOrChildren env zk rest (some { current_res with
        matched_attackers :=
          current_res.matched_attackers ∪ result.filter_result.matched_attackers
        matched_victim := current_res.matched_victim || result.filter_result.matched_victim })
    | some result, none => evalOrChildren env zk rest (some result.filter_result)
    | none, a => evalOrChildren env zk rest a

end

/-- The `match_nodes.is_empty() / len() == 1 / And(..)` rebuild step of
`partition_filters` for `And` nodes. -/
def rebuildAnd : List FilterNode → Option FilterNode
  | [] => none
  | [n] => some n
  | ns => some (.and ns)

/-- The rebuild step of `partition_filters` for `Or` nodes. -/
def rebuildOr : List FilterNode → Option FilterNode
  | [] => none
  | [n] => some n
  | ns => some (.or ns)

mutual

/-- Embeds `partition_filters` (`processor.rs:195-275`): split a filter tree into a
match tree and a veto tree.  `IgnoreHighStanding` leaves go to the veto
tree, all other leaves to the match tree; `And`/`Or` partition each child
and rewrap (collapsing a single survivor); a `Not` whose inner split has any
veto content is kept whole as a match-tree node. -/
def partitionFilters : FilterNode → Option FilterNode × Option FilterNode
  | .condition (.simple (.ignoreHighStanding u src eid)) =>
    (none, some (.condition (.simple (.ignoreHighStanding u src eid))))
  | .condition f => (some (.condition f), none)
  | .and nodes =>
    let (match_nodes, veto_nodes) := partitionChildren nodes
    (rebuildAnd match_nodes, rebuildAnd veto_nodes)
  | .or nodes =>
    let (match_nodes, veto_nodes) := partitionChildren nodes
    (rebuildOr match_nodes, rebuildOr veto_nodes)
  | .not inner_node =>
    let (match_node, veto_node) := partitionFilters inner_node
    if veto_node.isSome then
      (some (.not inner_node), none)
    else
      (some (.not (match_node.getD (.and []))), none)

/-- The child loop of `partition_filters` for `And`/`Or`: partition each
child and collect the surviving match/veto nodes in order. -/
def partitionChildren : List FilterNode → List FilterNode × List FilterNode
  | [] => ([], [])
  | n :: rest =>
    let (m, v) := partitionFilters n
    let (ms, vs) := partitionChildren rest
    (m.toList ++ ms, v.toList ++ vs)

end

/-- Step 2 of `process_killmail` (`processor.rs:150-156`): the veto tree's
matched attackers — empty when there is no veto tree or it does not match. -/
def vetoAttackersOf (env : Env) (zk : ZkData) (veto_tree : Option FilterNode) :
    Finset AttackerKey :=
  match veto_tree with
  | some vt =>
    ((evaluateFilterNode env zk vt).map
      (fun r => r.filter_result.matched_attackers)).getD ∅
  | none => ∅

/-- Steps 1-3 of the per-subscription body of `process_killmail`
(`processor.rs:124-186`): partition the root filter, evaluate the match
tree, subtract the veto tree's matched attackers, and fire when an attacker
survives or the victim matched. -/
def processSubscription (env : Env) (zk : ZkData) (subscription : Subscription) :
    Option NamedFilterResult :=
  let trees := partitionFilters subscription.root_filter
  match trees.1 with
  | none => none
  | some match_tree =>
    match evaluateFilterNode env zk match_tree with
    | none => none
    | some primary_matches =>
      let veto_attackers : Finset AttackerKey := vetoAttackersOf env zk trees.2
      let final_attackers :=
        primary_matches.filter_result.matched_attackers \ veto_attackers
      let final_victim_match := primary_matches.filter_result.matched_victim
      if !(final_attackers = ∅) || final_victim_match then
        some { name := primary_matches.name
               filter_result :=
                 { matched_attackers := final_attackers
                   matched_victim := final_victim_match
                   min_pilots := primary_matches.filter_result.min_pilots
                   light_year_range := primary_matches.filter_result.light_year_range } }
      else none

/-- Embeds `process_killmail` (`processor.rs:110-191`): run every subscription of
every tenant of the snapshot against the killmail and collect the firing
ones in iteration order. -/
def processKillmail (env : Env) (zk : ZkData)
    (all_subscriptions : List (Nat × List Subscription)) :
    List (Nat × Subscription × NamedFilterResult) :=
  all_subscriptions.flatMap (fun gs =>
    gs.2.filterMap (fun subscription =>
      (processSubscription env zk subscription).map
        (fun r => (gs.1, subscription, r))))

/-- Embeds `discord_bot.rs` `KillmailSendError`, reduced to its classification. -/
inductive SendErrorKind where
  | cleanupChannel
  | other
  deriving DecidableEq, Repr

/-- The HTTP-error classification of `send_killmail_message`
(`discord_bot.rs:804-838`): status 403 (Forbidden) and 404 (Not Found) map
to the cleanup-channel signal, anything else is transient. -/
def classifySendStatus (status : Nat) : SendErrorKind :=
  if status = 403 ∨ status = 404 then .cleanupChannel else .other

/-- The cleanup handler of the ingest loop (`lib.rs:202-220`): on a
cleanup-channel signal raised while delivering for `(guild_id, channel_id)`,
the handler takes `subs_map.get_mut(&guild_id)` and retains, in that guild's
list only, the subscriptions whose action channel differs from the dead
channel; the same filtered list is then persisted to that guild's file. -/
def cleanupChannelSubscriptions (subs : List (Nat × List Subscription))
    (guild_id : Nat) (channel_id : String) : List (Nat × List Subscription) :=
  subs.map (fun gs =>
    if gs.1 = guild_id then
      (gs.1, gs.2.filter (fun s => !(s.action.channel_id = channel_id)))
    else gs)

/-- One delivery request as seen by the ping-debounce logic of
`send_killmail_message` (`discord_bot.rs:761-791`).  `now` is the
`Instant::now()` at the debounce check (in seconds, as `ℚ`) and
`kill_age_minutes` the already-computed killmail age
(`Utc::now().signed_duration_since(kill_time).num_minutes()`). -/
structure PingRequest where
  channel_id : Nat
  now : ℚ
  ping_type : Option PingType
  kill_age_minutes : Int

/-- Embeds `Instant::duration_since`: saturating difference in seconds. -/
def durationSince (later earlier : ℚ) : ℚ := max (later - earlier) 0

/-- The ping-debounce decision of `send_killmail_message`
(`discord_bot.rs:761-791`): with a ping policy, pass the age gate
(`max_delay == 0` or age within it), then look the channel up in
`last_ping_times` (`entry(..).or_insert(now - 301)`); a ping is sent only
when more than 300 seconds elapsed since the recorded instant, and the
entry is set to `now` exactly when the ping is granted. -/
def pingStep (last_ping_times : Nat → Option ℚ) (req : PingRequest) :
    Bool × (Nat → Option ℚ) :=
  match req.ping_type with
  | none => (false, last_ping_times)
  | some ping_type =>
    let max_delay := (ping_type.max_ping_delay_in_minutes).getD 0
    if max_delay = 0 ∨ req.kill_age_minutes ≤ (max_delay : Int) then
      let last := (last_ping_times req.channel_id).getD (req.now - 301)
      if 300 < durationSince req.now last then
        (true, fun c => if c = req.channel_id then some req.now else last_ping_times c)
      else
        (false, fun c => if c = req.channel_id then some last else last_ping_times c)
    else (false, last_ping_times)

/-- Run a sequence of delivery requests through the debouncer, recording
`(channel, time)` for every granted ping. -/
def runPings (last_ping_times : Nat → Option ℚ) : List PingRequest → List (Nat × ℚ)
  | [] => []
  | req :: rest =>
    let step := pingStep last_ping_times req
    (if step.1 then [(req.channel_id, req.now)] else []) ++ runPings step.2 rest

/-- The times at which a ping was granted to channel `ch`, over a whole run
starting from the empty `last_ping_times` map (process start). -/
def grantedPingTimes (reqs : List PingRequest) (ch : Nat) : List ℚ :=
  ((runPings (fun _ => none) reqs).filter (fun p => p.1 = ch)).map (fun p => p.2)

/-- Spec-side formula (C4): the intersection over the non-empty sets of a
list, the empty sets being skipped as "don't care"; `∅` when every set is
empty. -/
def interNonEmpty (l : List (Finset AttackerKey)) : Finset AttackerKey :=
  match l.filter (fun s => !(s = ∅)) with
  | [] => ∅
  | s :: rest => rest.foldl (fun a b => a ∩ b) s

/-- Spec-side formula (C5): the union of the matched-attacker sets of a list
of results. -/
def unionAttackers : List NamedFilterResult → Finset AttackerKey
  | [] => ∅
  | r :: rest => r.filter_result.matched_attackers ∪ unionAttackers rest

mutual

/-- Does a filter tree contain the veto predicate (`IgnoreHighStanding`)?
(The spec's side condition for the `Not(Not(n)) ≡ n` law.) -/
def containsVeto : FilterNode → Bool
  | .condition (.simple (.ignoreHighStanding _ _ _)) => true
  | .condition _ => false
  | .and nodes => containsVetoAny nodes
  | .or nodes => containsVetoAny nodes
  | .not node => containsVeto node

/-- Does any node of a list contain the veto predicate? -/
def containsVetoAny : List FilterNode → Bool
  | [] => false
  | n :: rest => containsVeto n || containsVetoAny rest

end

/-- The keys of all attackers of an event. -/
def allAttackerKeys (zk : ZkData) : Finset AttackerKey :=
  (zk.killmail.attackers.map AttackerKey.new).toFinset

-- Concrete fixtures used by witnesses and counterexamples.

/-- An enrichment environment with no knowledge at all. -/
def envEmpty : Env :=
  { systems := fun _ => none
    shipGroups := fun _ => none
    names := fun _ => none
    userStandings := fun _ => none
    distanceLy := fun _ _ => 0
    parseF64 := fun _ => none
    parseHourUTC := fun _ => none }

/-- An environment that knows the ship groups of types 19722 and 19720
(both resolve to group 485, the dreadnought group of the spec's scenario). -/
def envShipGroups : Env :=
  { envEmpty with shipGroups := fun i =>
      if i = 19722 then some 485 else if i = 19720 then some 485 else none }

/-- A one-attacker NPC killmail: victim in a Rifter-like ship 587
(alliance 1001), one attacker in ship 671 with weapon 3 (alliance 1002). -/
def zkOneAttacker : ZkData :=
  { kill_id := 1
    killmail :=
      { attackers := [⟨some 1002, some 102, some 2, none, some 671, some 3⟩]
        killmail_id := 1
        killmail_time := "2025-07-08T12:00:00Z"
        solar_system_id := 30000142
        victim := ⟨some 1001, some 101, some 1, none, 587⟩ }
    zkb := { dropped_value := 1000000, total_value := 10000000, npc := true, solo := false } }

/-- The spec's ship-group scenario event: a victim flying ship type 19722
(a dreadnought, group 485) and no attackers. -/
def zkDreadVictim : ZkData :=
  { kill_id := 2
    killmail :=
      { attackers := []
        killmail_id := 2
        killmail_time := "2025-07-06T23:32:26Z"
        solar_system_id := 30002539
        victim := ⟨some 99009845, some 98498670, some 2114058087, none, 19722⟩ }
    zkb := { dropped_value := 0, total_value := 5238159192, npc := false, solo := false } }

/-- A subscription of tenant 1 delivering to channel `"c"`. -/
def subTenant1 : Subscription :=
  { id := "a", description := "", root_filter := .and [], action := ⟨"c", none⟩ }

/-- A subscription of tenant 2 delivering to the same channel `"c"`. -/
def subTenant2 : Subscription :=
  { id := "b", description := "", root_filter := .and [], action := ⟨"c", none⟩ }

/-- A two-tenant subscription snapshot, both tenants feeding channel `"c"`. -/
def subsTwoTenants : List (Nat × List Subscription) :=
  [(1, [subTenant1]), (2, [subTenant2])]

/-! ## Theorems -/

/-- C10: for every event and environment, the empty conjunction `And([])`
returns a match with `matched_victim = true`, `matched_attackers = ∅` and no
metadata — it matches every event.  (Its name is the empty join of no child
names.) -/
theorem and_empty_matches_everything (env : Env) (zk : ZkData) :
    evaluateFilterNode env zk (.and []) =
      some ⟨"", ⟨∅, true, none, none⟩⟩ := rfl

/-- C9: a targeted `ShipType` leaf's condition holds of an actor exactly when
its ship type or its weapon type is in the configured set, and a `ShipGroup`
leaf's condition holds exactly when either id resolves (via enrichment) to a
group in the configured set; a weapon match alone suffices even when the
ship type is absent or does not match. -/
theorem shiptype_condition_ship_or_weapon (env : Env) (ids : List Nat) (a : Attacker) :
    (conditionChecker env (.shipType ids) a = true ↔
      (∃ i, a.ship_type_id = some i ∧ i ∈ ids) ∨
      (∃ i, a.weapon_type_id = some i ∧ i ∈ ids))
    ∧ (conditionChecker env (.shipGroup ids) a = true ↔
      (∃ i g, a.ship_type_id = some i ∧ env.shipGroups i = some g ∧ g ∈ ids) ∨
      (∃ i g, a.weapon_type_id = some i ∧ env.shipGroups i = some g ∧ g ∈ ids)) := by
  have hship : ∀ (o : Option Nat),
      Option.any (fun id => ids.contains id) o = true ↔ ∃ i, o = some i ∧ i ∈ ids := by
    intro o
    cases o <;> simp [List.contains, List.elem_iff]
  have hgroup : ∀ (o : Option Nat),
      (match o with
        | some id => Option.any (fun gid => ids.contains gid) (env.shipGroups id)
        | none => false) = true ↔
      ∃ i g, o = some i ∧ env.shipGroups i = some g ∧ g ∈ ids := by
    intro o
    cases o with
    | none => simp
    | some i =>
      cases hg : env.shipGroups i <;> simp [hg, List.contains, List.elem_iff]
  constructor
  · show (_ || _) = true ↔ _
    rw [Bool.or_eq_true, hship a.ship_type_id, hship a.weapon_type_id]
  · show (_ || _) = true ↔ _
    rw [Bool.or_eq_true, hgroup a.ship_type_id, hgroup a.weapon_type_id]

/-- C3 (the code at the spec's failing input): the `ShipGroup` evaluator
resolves the *actor's* ship type to its group and tests membership of that
group in the configured list as is; configured entries are never resolved
from type ids to group ids.  With enrichment `19722 ↦ 485, 19720 ↦ 485` and
a victim flying ship type 19722, the rule `Targeted{ShipGroup=[19720],
target=Any}` does **not** fire (the spec and the repository's own test
documentation say it must, with `matched_victim = true`), while
`ShipGroup=[485]` does. -/
theorem shipgroup_list_not_resolved_at_failing_input :
    evaluateFilterNode envShipGroups zkDreadVictim
        (.condition (.targeted ⟨.shipGroup [19720], .any⟩)) = none
    ∧ evaluateFilterNode envShipGroups zkDreadVictim
        (.condition (.targeted ⟨.shipGroup [485], .any⟩)) =
      some ⟨"ShipGroup(ids: [485], target: Any)", ⟨∅, true, none, none⟩⟩ := by
  constructor <;> rfl

/-- C6 counterexample: `Not(Not(n))` is *not* equivalent to `n` under
evaluation, even for a veto-free `n`: for `n = IsNpc(true)` on an NPC event
with one attacker, `n` yields `(∅, victim)` while `Not(Not(n))` yields the
all-attackers-and-victim result (and a different name). -/
theorem not_not_counterexample :
    containsVeto (.condition (.simple (.isNpc true))) = false
    ∧ evaluateFilterNode envEmpty zkOneAttacker
        (.not (.not (.condition (.simple (.isNpc true))))) ≠
      evaluateFilterNode envEmpty zkOneAttacker (.condition (.simple (.isNpc true))) := by
  constructor
  · decide
  · intro h
    have h1 : evaluateFilterNode envEmpty zkOneAttacker
        (.not (.not (.condition (.simple (.isNpc true))))) =
        some ⟨"Not(Not(IsNpc(true)))",
          ⟨{⟨"s671:w3:c2:o102:a1002"⟩}, true, none, none⟩⟩ := by decide
    have h2 : evaluateFilterNode envEmpty zkOneAttacker
        (.condition (.simple (.isNpc true))) =
        some ⟨"IsNpc(true)", ⟨∅, true, none, none⟩⟩ := by decide
    rw [h1, h2] at h
    exact absurd (congrArg (fun o => (o.map (fun r => r.name)).getD "") h) (by decide)

/-- C6 as amended: for every filter node `n` containing no veto predicate
(indeed for every `n`), `Not(Not(n))` *matches* exactly when `n` matches;
the counterexample above shows the full results need not be equal. -/
theorem not_not_matches_iff (env : Env) (zk : ZkData) (n : FilterNode)
    (hveto : containsVeto n = false) :
    (evaluateFilterNode env zk (.not (.not n))).isSome =
      (evaluateFilterNode env zk n).isSome := by
  cases h : evaluateFilterNode env zk n with
  | none =>
    simp [evaluateFilterNode, h]
  | some r =>
    simp [evaluateFilterNode, h]

/-- Witness for `not_not_matches_iff`, at `n = IsNpc(true)` on the concrete
NPC event. -/
theorem not_not_matches_iff_witness :
    (evaluateFilterNode envEmpty zkOneAttacker
        (.not (.not (.condition (.simple (.isNpc true)))))).isSome =
      (evaluateFilterNode envEmpty zkOneAttacker
        (.condition (.simple (.isNpc true)))).isSome :=
  not_not_matches_iff envEmpty zkOneAttacker (.condition (.simple (.isNpc true))) (by decide)

/-- Unfolding lemma: the `Or` child fold on the empty list. -/
theorem evalOrChildren_nil (env : Env) (zk : ZkData) (acc : Option FilterResult) :
    evalOrChildren env zk [] acc = acc := rfl

/-- Unfolding lemma: one step of the `Or` child fold. -/
theorem evalOrChildren_cons (env : Env) (zk : ZkData) (n : FilterNode)
    (rest : List FilterNode) (acc : Option FilterResult) :
    evalOrChildren env zk (n :: rest) acc =
      match evaluateFilterNode env zk n, acc with
      | some result, some current_res =>
        evalOrChildren env zk rest (some { current_res with
          matched_attackers :=
            current_res.matched_attackers ∪ result.filter_result.matched_attackers
          matched_victim :=
            current_res.matched_victim || result.filter_result.matched_victim })
      | some result, none => evalOrChildren env zk rest (some result.filter_result)
      | none, a => evalOrChildren env zk rest a := rfl

/-- Unfolding lemma: the `And` child loop on the empty list. -/
theorem evalAndChildren_nil (env : Env) (zk : ZkData) :
    evalAndChildren env zk [] = some [] := rfl

/-- Unfolding lemma: one step of the `And` child loop. -/
theorem evalAndChildren_cons (env : Env) (zk : ZkData) (n : FilterNode)
    (rest : List FilterNode) :
    evalAndChildren env zk (n :: rest) =
      match evaluateFilterNode env zk n with
      | none => none
      | some r => (evalAndChildren env zk rest).map (fun rs => r :: rs) := rfl

/-- The `Or` child fold with an already-populated accumulator: later matching
children only extend the attacker set and or the victim flag; the
accumulator's metadata survives untouched. -/
theorem evalOrChildren_some (env : Env) (zk : ZkData) :
    ∀ (nodes : List FilterNode) (acc : FilterResult),
      evalOrChildren env zk nodes (some acc) = some
        ⟨acc.matched_attackers ∪
            unionAttackers (nodes.filterMap (fun n => evaluateFilterNode env zk n)),
          acc.matched_victim ||
            (nodes.filterMap (fun n => evaluateFilterNode env zk n)).any
              (fun r => r.filter_result.matched_victim),
          acc.min_pilots, acc.light_year_range⟩ := by
  intro nodes
  induction nodes with
  | nil =>
    intro acc
    simp [evalOrChildren_nil, unionAttackers]
  | cons n rest ih =>
    intro acc
    rw [evalOrChildren_cons]
    cases hv : evaluateFilterNode env zk n with
    | none =>
      simp [hv, ih]
    | some r =>
      simp only [hv, ih, List.filterMap_cons, unionAttackers, List.any_cons]
      rw [Finset.union_assoc, Bool.or_assoc]

/-- The `Or` child fold from the empty accumulator, in terms of the list of
matching children. -/
theorem evalOrChildren_none (env : Env) (zk : ZkData) :
    ∀ (nodes : List FilterNode),
      evalOrChildren env zk nodes none =
        match nodes.filterMap (fun n => evaluateFilterNode env zk n) with
        | [] => none
        | first :: rest =>
          some ⟨first.filter_result.matched_attackers ∪ unionAttackers rest,
            first.filter_result.matched_victim ||
              rest.any (fun r => r.filter_result.matched_victim),
            first.filter_result.min_pilots,
            first.filter_result.light_year_range⟩ := by
  intro nodes
  induction nodes with
  | nil => rfl
  | cons n rest ih =>
    rw [evalOrChildren_cons]
    cases hv : evaluateFilterNode env zk n with
    | none => simp [hv, ih]
    | some r =>
      simp [hv, evalOrChildren_some]

/-- C5 as amended: an `Or` node matches exactly when at least one child
matches; the merged `matched_attackers` is the union over the matching
children and `matched_victim` their disjunction, but the `min_pilots` /
`light_year_range` metadata is taken from the *first matching child alone* —
a later child's non-empty metadata is ignored even when the first matching
child carries none. -/
theorem or_node_semantics (env : Env) (zk : ZkData) (nodes : List FilterNode) :
    (nodes.filterMap (fun n => evaluateFilterNode env zk n) = [] →
      evaluateFilterNode env zk (.or nodes) = none)
    ∧ ∀ first rest,
        nodes.filterMap (fun n => evaluateFilterNode env zk n) = first :: rest →
        evaluateFilterNode env zk (.or nodes) =
          some ⟨(FilterNode.or nodes).name,
            ⟨unionAttackers (first :: rest),
              (first :: rest).any (fun r => r.filter_result.matched_victim),
              first.filter_result.min_pilots,
              first.filter_result.light_year_range⟩⟩ := by
  constructor
  · intro hnil
    simp [evaluateFilterNode, evalOrChildren_none, hnil]
  · intro first rest hcons
    simp [evaluateFilterNode, evalOrChildren_none, hcons, unionAttackers]

/-- Witness for `or_node_semantics`: at the concrete two-child `Or` both of
whose children match, the node yields the union/disjunction merge with the
first child's (empty) metadata. -/
theorem or_node_semantics_witness :
    evaluateFilterNode envEmpty zkOneAttacker
        (.or [.condition (.simple (.isNpc true)),
              .condition (.simple (.pilots (some 1) none))]) =
      some ⟨"Or(IsNpc(true), Pilots(min: 1, max: any))", ⟨∅, true, none, none⟩⟩ := by
  rw [(or_node_semantics envEmpty zkOneAttacker
    [.condition (.simple (.isNpc true)), .condition (.simple (.pilots (some 1) none))]).2
    ⟨"IsNpc(true)", ⟨∅, true, none, none⟩⟩
    [⟨"Pilots(min: 1, max: any)", ⟨∅, true, some 1, none⟩⟩] (by decide)]
  decide

/-- C5 counterexample (to the claim as frozen): in the same two-child `Or`,
both children match, the first with no `min_pilots` and the second with
`min_pilots = 1`; the first non-empty metadata among the matching children
is `1`, yet the merged result carries `none`. -/
theorem or_metadata_counterexample :
    (evaluateFilterNode envEmpty zkOneAttacker
        (.or [.condition (.simple (.isNpc true)),
              .condition (.simple (.pilots (some 1) none))])).map
        (fun r => r.filter_result.min_pilots) = some none
    ∧ ([.condition (.simple (.isNpc true)),
        .condition (.simple (.pilots (some 1) none))].filterMap
          (fun n => evaluateFilterNode envEmpty zkOneAttacker n)).findSome?
        (fun r => r.filter_result.min_pilots) = some 1 := by
  constructor
  · decide
  · decide

/-- Folding the don't-care intersection step over a list is folding plain
intersection over its non-empty members. -/
theorem foldl_inter_filter :
    ∀ (l : List (Finset AttackerKey)) (init : Finset AttackerKey),
      l.foldl (fun acc b => if b = ∅ then acc else acc ∩ b) init =
        (l.filter (fun s => !(s = ∅))).foldl (fun a b => a ∩ b) init := by
  intro l
  induction l with
  | nil => intro init; rfl
  | cons s rest ih =>
    intro init
    by_cases hs : s = ∅
    · simp [hs, ih]
    · simp [hs, ih]

/-- The source's "first non-empty set, then intersect the other non-empty
sets" computation equals the intersection over the non-empty sets. -/
theorem inter_code_eq :
    ∀ (l : List (Finset AttackerKey)),
      l.foldl (fun acc b => if b = ∅ then acc else acc ∩ b)
        (((l.find? (fun s => !(s = ∅))).getD ∅)) = interNonEmpty l := by
  intro l
  induction l with
  | nil => rfl
  | cons s rest ih =>
    by_cases hs : s = ∅
    · have hfind : (s :: rest).find? (fun s => !(s = ∅)) = rest.find? (fun s => !(s = ∅)) := by
        rw [List.find?_cons_of_neg]
        simp [hs]
      have hfilter : (s :: rest).filter (fun s => !(s = ∅)) =
          rest.filter (fun s => !(s = ∅)) := by
        rw [List.filter_cons_of_neg]
        simp [hs]
      rw [hfind, List.foldl_cons, if_pos hs]
      rw [interNonEmpty, hfilter, ← interNonEmpty]
      exact ih
    · have hfind : (s :: rest).find? (fun s => !(s = ∅)) = some s := by
        rw [List.find?_cons_of_pos]
        simp [hs]
      have hfilter : (s :: rest).filter (fun s => !(s = ∅)) =
          s :: rest.filter (fun s => !(s = ∅)) := by
        rw [List.filter_cons_of_pos]
        simp [hs]
      rw [hfind, List.foldl_cons, if_neg hs, Option.getD_some, Finset.inter_self,
        foldl_inter_filter, interNonEmpty, hfilter]

/-- Embeds `find?`-then-`bind` is `findSome?`: the source's "first child whose
`light_year_range` is non-empty" computes the first non-`none` value. -/
theorem find_isSome_bind_eq_findSome {α : Type} (f : NamedFilterResult → Option α) :
    ∀ (l : List NamedFilterResult),
      (l.find? (fun r => (f r).isSome)).bind f = l.findSome? f := by
  intro l
  induction l with
  | nil => rfl
  | cons a rest ih =>
    cases ha : f a with
    | none =>
      rw [List.find?_cons_of_neg _ (by simp [ha]), List.findSome?_cons, ha]
      exact ih
    | some b =>
      rw [List.find?_cons_of_pos _ (by simp [ha]), List.findSome?_cons, ha]
      simp [ha]

/-- A child loop failure: if some child of an `And` evaluates to `None`, the
whole child loop fails. -/
theorem evalAndChildren_fails (env : Env) (zk : ZkData) :
    ∀ (nodes : List FilterNode), (∃ n ∈ nodes, evaluateFilterNode env zk n = none) →
      evalAndChildren env zk nodes = none := by
  intro nodes
  induction nodes with
  | nil => rintro ⟨n, hn, -⟩; exact absurd hn (List.not_mem_nil n)
  | cons m rest ih =>
    rintro ⟨n, hn, hnone⟩
    rw [evalAndChildren_cons]
    rcases List.mem_cons.mp hn with rfl | hmem
    · rw [hnone]
    · cases hv : evaluateFilterNode env zk m with
      | none => rfl
      | some r => rw [ih ⟨n, hmem, hnone⟩]; rfl

/-- Extraction through an inverted guard: a `some` output of
`if c then none else some x` is `x`. -/
theorem if_none_some_eq_some {α : Type} {c : Prop} [Decidable c] {x res : α}
    (h : (if c then none else some x) = some res) : res = x := by
  by_cases hc : c
  · rw [if_pos hc] at h
    exact absurd h (by simp)
  · rw [if_neg hc] at h
    exact (Option.some.injEq x res ▸ h).symm

/-- An `And` node whose child loop fails evaluates to `None`. -/
theorem evalAnd_fail (env : Env) (zk : ZkData) (nodes : List FilterNode)
    (h : evalAndChildren env zk nodes = none) :
    evaluateFilterNode env zk (.and nodes) = none := by
  simp [evaluateFilterNode, h]

/-- The merge step of an `And` node whose children all matched, with the
attacker sets expressed through `interNonEmpty` and the metadata through
`findSome?`. -/
theorem evalAnd_eq (env : Env) (zk : ZkData) (nodes : List FilterNode)
    (results : List NamedFilterResult)
    (hres : evalAndChildren env zk nodes = some results) :
    evaluateFilterNode env zk (.and nodes) =
      (if (results.all fun r => r.filter_result.matched_victim) = false ∧
          interNonEmpty (results.map fun r => r.filter_result.matched_attackers) = ∅ then
        none
      else
        some ⟨String.intercalate " + " (results.map fun r => r.name),
          ⟨interNonEmpty (results.map fun r => r.filter_result.matched_attackers),
            results.all fun r => r.filter_result.matched_victim,
            results.findSome? fun r => r.filter_result.min_pilots,
            results.findSome? fun r => r.filter_result.light_year_range⟩⟩) := by
  have hset : ∀ (results : List NamedFilterResult),
      results.foldl (fun acc b =>
          if b.filter_result.matched_attackers = ∅ then acc
          else acc ∩ b.filter_result.matched_attackers)
        (((results.find? (fun r => !(r.filter_result.matched_attackers = ∅))).map
          (fun r => r.filter_result.matched_attackers)).getD ∅) =
        interNonEmpty (results.map fun r => r.filter_result.matched_attackers) := by
    intro results
    rw [← inter_code_eq, List.foldl_map, List.find?_map]
    rfl
  simp only [evaluateFilterNode, hres]
  rw [hset, find_isSome_bind_eq_findSome]
  by_cases hvic : (results.all fun r => r.filter_result.matched_victim) = true
  · by_cases hma :
        interNonEmpty (results.map fun r => r.filter_result.matched_attackers) = ∅ <;>
      simp [hvic, hma]
  · rw [Bool.not_eq_true] at hvic
    by_cases hma :
        interNonEmpty (results.map fun r => r.filter_result.matched_attackers) = ∅ <;>
      simp [hvic, hma]

/-- C4: an `And` node fails as soon as one child fails; when every child
matches, the merged result intersects the non-empty attacker sets of the
children (empty sets are skipped as don't-care), conjoins the victim flags,
takes the first non-empty `min_pilots` and `light_year_range`, and the node
yields `None` exactly when the merged victim flag is false and the merged
attacker set empty. -/
theorem and_node_semantics (env : Env) (zk : ZkData) (nodes : List FilterNode) :
    ((∃ n ∈ nodes, evaluateFilterNode env zk n = none) →
      evaluateFilterNode env zk (.and nodes) = none)
    ∧ ∀ results, evalAndChildren env zk nodes = some results →
        evaluateFilterNode env zk (.and nodes) =
          (if (results.all fun r => r.filter_result.matched_victim) = false ∧
              interNonEmpty (results.map fun r => r.filter_result.matched_attackers) = ∅ then
            none
          else
            some ⟨String.intercalate " + " (results.map fun r => r.name),
              ⟨interNonEmpty (results.map fun r => r.filter_result.matched_attackers),
                results.all fun r => r.filter_result.matched_victim,
                results.findSome? fun r => r.filter_result.min_pilots,
                results.findSome? fun r => r.filter_result.light_year_range⟩⟩) :=
  ⟨fun hfail => evalAnd_fail env zk nodes (evalAndChildren_fails env zk nodes hfail),
   fun results hres => evalAnd_eq env zk nodes results hres⟩

/-- Witness for `and_node_semantics`: a concrete two-child `And` (a global
NPC filter and a targeted alliance filter) merges to the targeted child's
attacker set with `matched_victim = false` and fires on the attacker set. -/
theorem and_node_semantics_witness :
    evaluateFilterNode envEmpty zkOneAttacker
        (.and [.condition (.simple (.isNpc true)),
               .condition (.targeted ⟨.alliance [1002], .any⟩)]) =
      some ⟨"IsNpc(true) + Alliance(ids: [1002], target: Any)",
        ⟨{⟨"s671:w3:c2:o102:a1002"⟩}, false, none, none⟩⟩ := by
  rw [(and_node_semantics envEmpty zkOneAttacker
    [.condition (.simple (.isNpc true)),
     .condition (.targeted ⟨.alliance [1002], .any⟩)]).2
    [⟨"IsNpc(true)", ⟨∅, true, none, none⟩⟩,
     ⟨"Alliance(ids: [1002], target: Any)",
       ⟨{⟨"s671:w3:c2:o102:a1002"⟩}, false, none, none⟩⟩] (by decide)]
  decide

/-- Membership in the attacker-key accumulation fold. -/
theorem mem_foldr_insert (l : List Attacker) (x : AttackerKey) :
    x ∈ l.foldr (fun a s => insert (AttackerKey.new a) s) (∅ : Finset AttackerKey) ↔
      ∃ a ∈ l, AttackerKey.new a = x := by
  induction l with
  | nil => simp
  | cons a rest ih =>
    simp only [List.foldr_cons, Finset.mem_insert, ih, List.mem_cons]
    constructor
    · rintro (rfl | ⟨b, hb, rfl⟩)
      · exact ⟨a, Or.inl rfl, rfl⟩
      · exact ⟨b, Or.inr hb, rfl⟩
    · rintro ⟨b, (rfl | hb), rfl⟩
      · exact Or.inl rfl
      · exact Or.inr ⟨b, hb, rfl⟩

/-- Keys accumulated from a sublist of the event's attackers are keys of the
event's attackers. -/
theorem foldr_insert_subset (zk : ZkData) (l : List Attacker)
    (hl : ∀ a ∈ l, a ∈ zk.killmail.attackers) :
    l.foldr (fun a s => insert (AttackerKey.new a) s) (∅ : Finset AttackerKey) ⊆
      allAttackerKeys zk := by
  intro x hx
  obtain ⟨a, ha, rfl⟩ := (mem_foldr_insert l x).mp hx
  simp only [allAttackerKeys, List.mem_toFinset, List.mem_map]
  exact ⟨a, hl a ha, rfl⟩

/-- Extraction through the evaluator's final guard: a `some` output of
`if c then some x else none` is `x`. -/
theorem if_some_eq_some {α : Type} {c : Prop} [Decidable c] {x res : α}
    (h : (if c then some x else none) = some res) : res = x := by
  by_cases hc : c
  · rw [if_pos hc] at h
    exact (Option.some.injEq x res ▸ h).symm
  · rw [if_neg hc] at h
    exact absurd h (by simp)

/-- Every leaf filter yields a `matched_attackers` set drawn from the
event's attackers: most leaves yield `∅`; the targeted and veto leaves
accumulate keys of (filtered) event attackers only — in particular the
victim, checked as a pseudo-attacker, is never inserted. -/
theorem evaluateFilter_subset (env : Env) (zk : ZkData) (f : Filter)
    (r : NamedFilterResult) (h : evaluateFilter env zk f = some r) :
    r.filter_result.matched_attackers ⊆ allAttackerKeys zk := by
  cases f with
  | targeted tf =>
    simp only [evaluateFilter] at h
    rw [Option.map_eq_some'] at h
    obtain ⟨res, hres, hr⟩ := h
    subst hr
    have hres' := if_some_eq_some hres
    subst hres'
    dsimp only
    split
    · exact foldr_insert_subset zk _ (fun a ha => (List.mem_filter.mp ha).1)
    · split <;> (intro x hx; simp [FilterResult.default] at hx)
  | simple sf =>
    cases sf
    case ignoreHighStanding u src eid =>
      simp only [evaluateFilter, Option.map_some', Option.some.injEq] at h
      subst h
      dsimp only
      rw [ignoreHighStandingResult]
      split
      · intro x hx
        simp [FilterResult.default] at hx
      · exact foldr_insert_subset zk _ (fun a ha => (List.mem_filter.mp ha).1)
    all_goals
      simp only [evaluateFilter] at h
      rw [Option.map_eq_some'] at h
      obtain ⟨res1, hres1, hr⟩ := h
      subst hr
      rw [Option.map_eq_some'] at hres1
      obtain ⟨res0, hres0, hp⟩ := hres1
      subst hp
      repeat' split at hres0
      all_goals
        first
        | (simp only [reduceCtorEq] at hres0)
        | (simp only [Option.some.injEq] at hres0; subst hres0;
           intro x hx; simp [FilterResult.default] at hx)
        | (have h0 := if_some_eq_some hres0; subst h0;
           intro x hx; simp [FilterResult.default] at hx)

/-- Folding plain intersection only shrinks the initial set. -/
theorem foldl_inter_subset :
    ∀ (l : List (Finset AttackerKey)) (init : Finset AttackerKey),
      l.foldl (fun a b => a ∩ b) init ⊆ init := by
  intro l
  induction l with
  | nil => intro init; exact fun x hx => hx
  | cons b rest ih =>
    intro init
    exact (ih _).trans Finset.inter_subset_left

mutual

/-- C2 (auxiliary): every result of the node evaluator draws its
`matched_attackers` from the event's attackers. -/
theorem evalNode_subset (env : Env) (zk : ZkData) :
    ∀ (node : FilterNode) (r : NamedFilterResult),
      evaluateFilterNode env zk node = some r →
      r.filter_result.matched_attackers ⊆ allAttackerKeys zk
  | .condition f, r, h => evaluateFilter_subset env zk f r h
  | .and nodes, r, h => by
    cases hch : evalAndChildren env zk nodes with
    | none =>
      rw [evalAnd_fail env zk nodes hch] at h
      exact Option.noConfusion h
    | some results =>
      rw [evalAnd_eq env zk nodes results hch] at h
      have hmem := evalAndChildren_subset env zk nodes results hch
      have hr := if_none_some_eq_some h
      subst hr
      dsimp only
      rw [interNonEmpty]
      split
      · exact Finset.empty_subset _
      · rename_i s rest heq
        refine (foldl_inter_subset rest s).trans ?_
        have hs : s ∈ (results.map fun r => r.filter_result.matched_attackers).filter
            (fun s => !(s = ∅)) := by
          rw [heq]
          exact List.mem_cons_self s rest
        obtain ⟨r0, hr0, hr0s⟩ := List.mem_map.mp (List.mem_filter.mp hs).1
        exact hr0s ▸ hmem r0 hr0
  | .or nodes, r, h => by
    simp only [evaluateFilterNode] at h
    cases hor : evalOrChildren env zk nodes none with
    | none => rw [hor] at h; exact absurd h (by simp)
    | some fr =>
      rw [hor] at h
      simp only [Option.map_some', Option.some.injEq] at h
      subst h
      exact evalOrChildren_subset env zk nodes none fr (by simp) hor
  | .not node, r, h => by
    simp only [evaluateFilterNode] at h
    have hr := if_none_some_eq_some h
    subst hr
    exact fun x hx => hx

/-- C2 (auxiliary): the `And` child loop only produces results drawn from
the event's attackers. -/
theorem evalAndChildren_subset (env : Env) (zk : ZkData) :
    ∀ (nodes : List FilterNode) (rs : List NamedFilterResult),
      evalAndChildren env zk nodes = some rs →
      ∀ r ∈ rs, r.filter_result.matched_attackers ⊆ allAttackerKeys zk
  | [], rs, h => by
    rw [evalAndChildren_nil] at h
    simp only [Option.some.injEq] at h
    subst h
    intro r hr
    exact absurd hr (List.not_mem_nil r)
  | n :: rest, rs, h => by
    rw [evalAndChildren_cons] at h
    cases hv : evaluateFilterNode env zk n with
    | none => rw [hv] at h; exact absurd h (by simp)
    | some r0 =>
      rw [hv] at h
      cases hrest : evalAndChildren env zk rest with
      | none => rw [hrest] at h; exact absurd h (by simp)
      | some rs' =>
        rw [hrest] at h
        simp only [Option.map_some', Option.some.injEq] at h
        subst h
        intro r hr
        rcases List.mem_cons.mp hr with rfl | hmem
        · exact evalNode_subset env zk n r hv
        · exact evalAndChildren_subset env zk rest rs' hrest r hmem

/-- C2 (auxiliary): the `Or` child fold preserves the subset invariant of
its accumulator. -/
theorem evalOrChildren_subset (env : Env) (zk : ZkData) :
    ∀ (nodes : List FilterNode) (acc : Option FilterResult) (fr : FilterResult),
      (∀ a, acc = some a → a.matched_attackers ⊆ allAttackerKeys zk) →
      evalOrChildren env zk nodes acc = some fr →
      fr.matched_attackers ⊆ allAttackerKeys zk
  | [], acc, fr, hacc, h => by
    rw [evalOrChildren_nil] at h
    exact hacc fr h
  | n :: rest, acc, fr, hacc, h => by
    rw [evalOrChildren_cons] at h
    cases hv : evaluateFilterNode env zk n with
    | none =>
      rw [hv] at h
      exact evalOrChildren_subset env zk rest acc fr hacc h
    | some result =>
      rw [hv] at h
      cases acc with
      | none =>
        exact evalOrChildren_subset env zk rest (some result.filter_result) fr
          (by rintro a ⟨rfl⟩; exact evalNode_subset env zk n result hv) h
      | some current_res =>
        refine evalOrChildren_subset env zk rest _ fr ?_ h
        rintro a ⟨rfl⟩
        exact Finset.union_subset (hacc current_res rfl)
          (evalNode_subset env zk n result hv)

end

/-- C2: for every filter node and every event, a returned result's
`matched_attackers` is a subset of the keys of the event's attackers; the
victim (checked as a pseudo-attacker by targeted leaves) never contributes
an element. -/
theorem matched_attackers_subset (env : Env) (zk : ZkData) (node : FilterNode)
    (r : NamedFilterResult) (h : evaluateFilterNode env zk node = some r) :
    r.filter_result.matched_attackers ⊆ allAttackerKeys zk :=
  evalNode_subset env zk node r h

/-- Witness for `matched_attackers_subset`: at the concrete targeted
alliance leaf matching the single attacker, the matched key set is within
the event's attacker keys. -/
theorem matched_attackers_subset_witness :
    ({⟨"s671:w3:c2:o102:a1002"⟩} : Finset AttackerKey) ⊆ allAttackerKeys zkOneAttacker :=
  matched_attackers_subset envEmpty zkOneAttacker
    (.condition (.targeted ⟨.alliance [1002], .any⟩))
    ⟨"Alliance(ids: [1002], target: Any)",
      ⟨{⟨"s671:w3:c2:o102:a1002"⟩}, false, none, none⟩⟩ (by decide)

/-- Membership in the reported list for a one-tenant, one-subscription
snapshot is exactly a firing `processSubscription`. -/
theorem mem_processKillmail_singleton (env : Env) (zk : ZkData) (g : Nat)
    (sub : Subscription) (r : NamedFilterResult) :
    ((g, sub, r) ∈ processKillmail env zk [(g, [sub])]) ↔
      processSubscription env zk sub = some r := by
  simp only [processKillmail, List.flatMap_cons, List.flatMap_nil, List.append_nil,
    List.filterMap_cons, List.filterMap_nil]
  cases hps : processSubscription env zk sub with
  | none => simp
  | some r0 =>
    simp [Prod.mk.injEq, eq_comm]

/-- Embeds `processSubscription` characterised: it reports exactly when the match
tree exists and matches, and the report is the match-tree result with the
veto-tree attackers subtracted (victim flag and metadata untouched),
provided an attacker survives or the victim matched. -/
theorem processSubscription_eq_some_iff (env : Env) (zk : ZkData)
    (sub : Subscription) (r : NamedFilterResult) :
    processSubscription env zk sub = some r ↔
      ∃ M p, (partitionFilters sub.root_filter).1 = some M ∧
        evaluateFilterNode env zk M = some p ∧
        r = ⟨p.name,
          ⟨p.filter_result.matched_attackers \
              vetoAttackersOf env zk (partitionFilters sub.root_filter).2,
            p.filter_result.matched_victim,
            p.filter_result.min_pilots,
            p.filter_result.light_year_range⟩⟩ ∧
        (¬ r.filter_result.matched_attackers = ∅ ∨
          r.filter_result.matched_victim = true) := by
  cases hM : (partitionFilters sub.root_filter).1 with
  | none =>
    simp only [processSubscription, hM]
    constructor
    · intro hfalse
      exact absurd hfalse (by simp)
    · rintro ⟨M, p, hMM, -⟩
      exact Option.noConfusion hMM
  | some M0 =>
    simp only [processSubscription, hM]
    cases hp : evaluateFilterNode env zk M0 with
    | none =>
      simp only [hp]
      constructor
      · intro hfalse
        exact absurd hfalse (by simp)
      · rintro ⟨M, p, hMM, hpp, -⟩
        obtain rfl : M0 = M := by injection hMM
        rw [hp] at hpp
        exact Option.noConfusion hpp
    | some p0 =>
      simp only [hp]
      constructor
      · intro hpsub
        by_cases hc : (!((p0.filter_result.matched_attackers \
              vetoAttackersOf env zk (partitionFilters sub.root_filter).2) = ∅) ||
            p0.filter_result.matched_victim) = true
        · rw [if_pos hc] at hpsub
          obtain rfl := (Option.some.injEq _ _ ▸ hpsub)
          refine ⟨M0, p0, rfl, hp, rfl, ?_⟩
          rcases Bool.or_eq_true _ _ |>.mp hc with hne | hv
          · left
            simpa using hne
          · right
            exact hv
        · rw [if_neg hc] at hpsub
          exact absurd hpsub (by simp)
      · rintro ⟨M, p, hMM, hpp, rfl, hfire⟩
        obtain rfl : M0 = M := by injection hMM
        obtain rfl : p0 = p := by rw [hp] at hpp; injection hpp
        rw [if_pos]
        rcases hfire with hne | hv
        · refine Bool.or_eq_true _ _ |>.mpr (Or.inl ?_)
          simpa using hne
        · exact Bool.or_eq_true _ _ |>.mpr (Or.inr hv)

/-- C1: for every rule and every event, `process_killmail` partitions the
rule into a match tree `M` and a veto tree `V`, and an entry is reported
exactly when `M` exists and matches: its attacker set is
`evaluate(M).matched_attackers \ evaluate(V).matched_attackers`,
`matched_victim` (and the name and metadata) are taken unchanged from the
match-tree result, and the rule fires iff the post-subtraction attacker set
is non-empty or `matched_victim` is true. -/
theorem process_killmail_veto_subtraction (env : Env) (zk : ZkData) (g : Nat)
    (sub : Subscription) (r : NamedFilterResult) :
    ((g, sub, r) ∈ processKillmail env zk [(g, [sub])]) ↔
      ∃ M p, (partitionFilters sub.root_filter).1 = some M ∧
        evaluateFilterNode env zk M = some p ∧
        r = ⟨p.name,
          ⟨p.filter_result.matched_attackers \
              vetoAttackersOf env zk (partitionFilters sub.root_filter).2,
            p.filter_result.matched_victim,
            p.filter_result.min_pilots,
            p.filter_result.light_year_range⟩⟩ ∧
        (¬ r.filter_result.matched_attackers = ∅ ∨
          r.filter_result.matched_victim = true) := by
  rw [mem_processKillmail_singleton, processSubscription_eq_some_iff]

/-- C7 counterexample (to the claim as frozen): both tenant 1 and tenant 2
subscribe to channel `"c"`; a 403 is classified as cleanup-channel, but the
handler — run for the failing delivery of tenant 1 — only filters tenant 1's
list, so a subscription with `channel_id = "c"` (tenant 2's) remains in the
map after the handler returns. -/
theorem channel_cleanup_counterexample :
    classifySendStatus 403 = SendErrorKind.cleanupChannel
    ∧ ((cleanupChannelSubscriptions subsTwoTenants 1 "c").flatMap
        (fun gs => gs.2)).any (fun s => s.action.channel_id == "c") = true := by
  constructor
  · decide
  · decide

/-- C7 as amended: on HTTP 403 or 404 the notifier returns the
cleanup-channel signal, and the handler removes every subscription whose
`channel_id` equals the dead channel *within the tenant whose delivery
failed* (and persists that tenant's filtered list); other tenants' entries
are left untouched, even when they reference the same channel. -/
theorem channel_cleanup_per_tenant (subs : List (Nat × List Subscription))
    (g : Nat) (c : String) :
    classifySendStatus 403 = SendErrorKind.cleanupChannel
    ∧ classifySendStatus 404 = SendErrorKind.cleanupChannel
    ∧ (∀ gs ∈ cleanupChannelSubscriptions subs g c, gs.1 = g →
        ∀ s ∈ gs.2, ¬ s.action.channel_id = c)
    ∧ (∀ gs ∈ subs, ¬ gs.1 = g → gs ∈ cleanupChannelSubscriptions subs g c) := by
  refine ⟨by decide, by decide, ?_, ?_⟩
  · intro gs hgs hg1 s hs
    obtain ⟨gs0, hgs0, rfl⟩ := List.mem_map.mp hgs
    by_cases h0 : gs0.1 = g
    · rw [if_pos h0] at hs
      have := (List.mem_filter.mp hs).2
      simpa using this
    · rw [if_neg h0] at hg1
      exact absurd hg1 h0
  · intro gs hgs hneq
    exact List.mem_map.mpr ⟨gs, hgs, if_neg hneq⟩

/-- Witness for `channel_cleanup_per_tenant`: tenant 2's entry survives the
cleanup of tenant 1 untouched. -/
theorem channel_cleanup_per_tenant_witness :
    (2, [subTenant2]) ∈ cleanupChannelSubscriptions subsTwoTenants 1 "c" :=
  (channel_cleanup_per_tenant subsTwoTenants 1 "c").2.2.2 (2, [subTenant2])
    (List.mem_cons_of_mem _ (List.mem_cons_self _ _)) (by decide)

/-- A fresh channel entry (`or_insert(now - 301)`) always passes the
300-second check. -/
theorem durationSince_fresh (now : ℚ) : durationSince now (now - 301) = 301 := by
  have h : now - (now - 301) = (301 : ℚ) := by ring
  simp [durationSince, h]

/-- Passing the 300-second check means the recorded instant lies more than
300 seconds in the past. -/
theorem gap_of_granted {now t : ℚ} (h : 300 < durationSince now t) :
    t + 300 < now := by
  simp only [durationSince] at h
  rcases le_or_lt (now - t) 0 with h0 | h0
  · rw [max_eq_right h0] at h
    norm_num at h
  · rw [max_eq_left h0.le] at h
    linarith

/-- Unfolding lemma: one step of `runPings`. -/
theorem runPings_cons_eq (m : Nat → Option ℚ) (req : PingRequest)
    (rest : List PingRequest) :
    runPings m (req :: rest) =
      (if (pingStep m req).1 then [(req.channel_id, req.now)] else []) ++
        runPings (pingStep m req).2 rest := rfl

/-- The debouncer invariant: prefixing the recorded last-ping instant of a
channel (when present) to the channel's future granted ping times yields a
chain whose consecutive elements are more than 300 seconds apart. -/
theorem runPings_chain (ch : Nat) :
    ∀ (reqs : List PingRequest) (m : Nat → Option ℚ),
      List.Chain' (fun a b => a + 300 < b)
        ((m ch).toList ++
          ((runPings m reqs).filter (fun p => p.1 = ch)).map (fun p => p.2)) := by
  intro reqs
  induction reqs with
  | nil =>
    intro m
    cases m ch <;> simp [runPings]
  | cons req rest ih =>
    intro m
    rw [runPings_cons_eq]
    rcases hpt : req.ping_type with _ | pt
    · have hstep : pingStep m req = (false, m) := by simp [pingStep, hpt]
      rw [hstep]
      simpa using ih m
    · by_cases hage : (pt.max_ping_delay_in_minutes.getD 0 = 0 ∨
          req.kill_age_minutes ≤ (pt.max_ping_delay_in_minutes.getD 0 : Int))
      · by_cases hdur :
            300 < durationSince req.now ((m req.channel_id).getD (req.now - 301))
        · have hstep : pingStep m req =
              (true, fun c => if c = req.channel_id then some req.now else m c) := by
            simp [pingStep, hpt, hage, hdur]
          rw [hstep]
          have ihm := ih (fun c => if c = req.channel_id then some req.now else m c)
          by_cases hc : req.channel_id = ch
          · subst hc
            rw [if_pos rfl] at ihm
            cases hmch : m req.channel_id with
            | none =>
              simpa [hmch] using ihm
            | some t =>
              have hgap : t + 300 < req.now :=
                gap_of_granted (by simpa [hmch] using hdur)
              simp only [hmch, Option.toList_some]
              simp
              exact ⟨hgap, by simpa using ihm⟩
          · rw [if_neg (fun hh : ch = req.channel_id => hc hh.symm)] at ihm
            simpa [hc] using ihm
        · have hstep : pingStep m req = (false, fun c =>
              if c = req.channel_id then
                some ((m req.channel_id).getD (req.now - 301))
              else m c) := by
            simp [pingStep, hpt, hage, hdur]
          rw [hstep]
          have ihm := ih (fun c =>
            if c = req.channel_id then
              some ((m req.channel_id).getD (req.now - 301))
            else m c)
          by_cases hc : req.channel_id = ch
          · cases hmch : m req.channel_id with
            | none =>
              exfalso
              apply hdur
              rw [hmch]
              show (300 : ℚ) < durationSince req.now (req.now - 301)
              rw [durationSince_fresh]
              norm_num
            | some t =>
              rw [if_pos hc.symm, hmch, Option.getD_some] at ihm
              have hmch' : m ch = some t := hc ▸ hmch
              simpa [hmch'] using ihm
          · rw [if_neg (fun hh : ch = req.channel_id => hc hh.symm)] at ihm
            simpa using ihm
      · have hstep : pingStep m req = (false, m) := by
          simp [pingStep, hpt, hage]
        rw [hstep]
        simpa using ih m

/-- Over a run from process start, the granted ping times of a channel are
spaced more than 300 seconds apart. -/
theorem grantedPingTimes_chain (reqs : List PingRequest) (ch : Nat) :
    List.Chain' (fun a b => a + 300 < b) (grantedPingTimes reqs ch) := by
  have h := runPings_chain ch reqs (fun _ => none)
  simpa [grantedPingTimes] using h

/-- A list whose consecutive elements are more than 300 apart has at most
one element in any closed window of length 300. -/
theorem chain_window_le_one (l : List ℚ)
    (hl : List.Chain' (fun a b => a + 300 < b) l) (T : ℚ) :
    (l.filter (fun t => T ≤ t ∧ t ≤ T + 300)).length ≤ 1 := by
  haveI : IsTrans ℚ (fun a b => a + 300 < b) :=
    ⟨fun a b c hab hbc => by
      have hab' : a + 300 < b := hab
      have hbc' : b + 300 < c := hbc
      show a + 300 < c
      linarith⟩
  have hp : l.Pairwise (fun a b => a + 300 < b) := List.chain'_iff_pairwise.mp hl
  have hpf : (l.filter (fun t => T ≤ t ∧ t ≤ T + 300)).Pairwise
      (fun a b => a + 300 < b) :=
    hp.sublist (List.filter_sublist l)
  cases hf : l.filter (fun t => T ≤ t ∧ t ≤ T + 300) with
  | nil => simp
  | cons a tail =>
    cases tail with
    | nil => simp
    | cons b tail2 =>
      exfalso
      rw [hf] at hpf
      have hab : a + 300 < b := (List.pairwise_cons.mp hpf).1 b (List.mem_cons_self b tail2)
      have ha : a ∈ l.filter (fun t => T ≤ t ∧ t ≤ T + 300) := by
        rw [hf]; exact List.mem_cons_self a _
      have hb : b ∈ l.filter (fun t => T ≤ t ∧ t ≤ T + 300) := by
        rw [hf]; exact List.mem_cons_of_mem a (List.mem_cons_self b tail2)
      have ha' := of_decide_eq_true (List.mem_filter.mp ha).2
      have hb' := of_decide_eq_true (List.mem_filter.mp hb).2
      obtain ⟨haT, haU⟩ := ha'
      obtain ⟨hbT, hbU⟩ := hb'
      linarith

/-- C8: within any closed 300-second window, at most one ping prefix is
emitted per destination channel; moreover a ping is granted only when more
than 300 seconds have elapsed since the channel's recorded last ping, and
the `last_ping_times` entry is set to the current instant exactly when the
ping is granted. -/
theorem ping_debounce_window (reqs : List PingRequest) (ch : Nat) (T : ℚ) :
    ((grantedPingTimes reqs ch).filter (fun t => T ≤ t ∧ t ≤ T + 300)).length ≤ 1
    ∧ (∀ (m : Nat → Option ℚ) (req : PingRequest), (pingStep m req).1 = true →
        (pingStep m req).2 req.channel_id = some req.now
        ∧ ∀ t, m req.channel_id = some t → 300 < durationSince req.now t) := by
  constructor
  · exact chain_window_le_one _ (grantedPingTimes_chain reqs ch) T
  · intro m req hgrant
    rcases hpt : req.ping_type with _ | pt
    · rw [pingStep, hpt] at hgrant
      exact absurd hgrant (by simp)
    · by_cases hage : (pt.max_ping_delay_in_minutes.getD 0 = 0 ∨
          req.kill_age_minutes ≤ (pt.max_ping_delay_in_minutes.getD 0 : Int))
      · by_cases hdur :
            300 < durationSince req.now ((m req.channel_id).getD (req.now - 301))
        · have hstep : pingStep m req =
              (true, fun c => if c = req.channel_id then some req.now else m c) := by
            simp [pingStep, hpt, hage, hdur]
          rw [hstep]
          refine ⟨by simp, ?_⟩
          intro t ht
          rw [ht] at hdur
          simpa using hdur
        · have hstep : pingStep m req = (false, fun c =>
              if c = req.channel_id then
                some ((m req.channel_id).getD (req.now - 301))
              else m c) := by
            simp [pingStep, hpt, hage, hdur]
          rw [hstep] at hgrant
          exact absurd hgrant (by simp)
      · have hstep : pingStep m req = (false, m) := by
          simp [pingStep, hpt, hage]
        rw [hstep] at hgrant
        exact absurd hgrant (by simp)

/-- Witness for `ping_debounce_window`: a concrete three-request trace to
channel 7 at instants 0, 100 and 400 grants pings at 0 and 400 only, and
the window `[0, 300]` holds a single ping. -/
theorem ping_debounce_window_witness :
    grantedPingTimes
        [⟨7, 0, some (.here none), 0⟩, ⟨7, 100, some (.here none), 0⟩,
         ⟨7, 400, some (.here none), 0⟩] 7 = [0, 400]
    ∧ ((grantedPingTimes
        [⟨7, 0, some (.here none), 0⟩, ⟨7, 100, some (.here none), 0⟩,
         ⟨7, 400, some (.here none), 0⟩] 7).filter
          (fun t => (0 : ℚ) ≤ t ∧ t ≤ (0 : ℚ) + 300)).length ≤ 1 :=
  ⟨by
    norm_num [grantedPingTimes, runPings, pingStep, durationSince,
      PingType.max_ping_delay_in_minutes],
   (ping_debounce_window
     [⟨7, 0, some (.here none), 0⟩, ⟨7, 100, some (.here none), 0⟩,
      ⟨7, 400, some (.here none), 0⟩] 7 0).1⟩

end ZkActivity
